import Mathlib

/-!
Verification development for the trunks TPM utility layer
(src/tpm_utility.h, src/unnamed/part_000 = tpm_utility_impl.h).

The repository ships only the interface header (`TpmUtility`) and the
default-implementation class declaration (`TpmUtilityImpl`): the method
bodies are not under src/.  Where a definition's behaviour is therefore
taken from the specification rather than from compiled code, its doc
comment starts with `Modelled from the spec:` and names what is missing.
Byte strings (`std::string` used as binary data) are `List Nat` with each
element understood modulo 256; handles (`TPM_HANDLE`) and algorithm ids
(`TPM_ALG_ID`) are `Nat`.
-/

namespace Trunks

/-- Result-code domain.  From spec §7 ("Taxonomy: `Success`; `FormatError`;
`AuthorizationFailure`; `HandleError`; `HardwareFault`; `TransportFailure`")
together with the operation-level codes named in §4
(`InvalidParameter`, `InvalidIndex`, `InvalidBlob`, `InvalidHandle`) and the
module-reported "signature invalid" of §4.4.  `Success` is the single
distinguished non-error value. -/
inductive TPM_RC where
  | Success
  | FormatError
  | AuthorizationFailure
  | HandleError
  | HardwareFault
  | TransportFailure
  | InvalidParameter
  | InvalidIndex
  | InvalidBlob
  | InvalidHandle
  | SignatureInvalid
  deriving DecidableEq, Repr

/-- Every result code other than `Success` is an error (spec §3:
"`Success` is the only non-error value"). -/
def TPM_RC.isError : TPM_RC → Bool
  | TPM_RC.Success => false
  | _ => true

/-- The enumerated domain of result codes, listed exhaustively. -/
def allResultCodes : List TPM_RC :=
  [TPM_RC.Success, TPM_RC.FormatError, TPM_RC.AuthorizationFailure,
   TPM_RC.HandleError, TPM_RC.HardwareFault, TPM_RC.TransportFailure,
   TPM_RC.InvalidParameter, TPM_RC.InvalidIndex, TPM_RC.InvalidBlob,
   TPM_RC.InvalidHandle, TPM_RC.SignatureInvalid]

/-- `enum AsymmetricKeyUsage` from src/tpm_utility.h lines 25-29. -/
inductive AsymmetricKeyUsage where
  | kDecryptKey
  | kSignKey
  | kDecryptAndSignKey
  deriving DecidableEq, Repr

/-- Modelled from the spec: `PERSISTENT_FIRST` is declared in
trunks/tpm_generated.h, which is not under src/.  It is the first handle of
the TPM2.0-class persistent-object handle range (0x81000000); spec §1 fixes
the module class as TPM2.0. -/
def PERSISTENT_FIRST : Nat := 0x81000000

/-- src/tpm_utility.h line 18: `kRSAStorageRootKey = PERSISTENT_FIRST`
(32-bit `TPMI_DH_PERSISTENT` arithmetic, hence the reduction mod 2^32). -/
def kRSAStorageRootKey : Nat := PERSISTENT_FIRST % 2 ^ 32

/-- src/tpm_utility.h line 19: `kECCStorageRootKey = PERSISTENT_FIRST + 1`. -/
def kECCStorageRootKey : Nat := (PERSISTENT_FIRST + 1) % 2 ^ 32

/-- src/tpm_utility.h line 20: `kSaltingKey = PERSISTENT_FIRST + 2`. -/
def kSaltingKey : Nat := (PERSISTENT_FIRST + 2) % 2 ^ 32

/-- Modelled from the spec: a loaded key inside the module.  The private
material (`seed`), public parameters (modulus size in bits, public
exponent), usage tag (§3 "Asymmetric Key Usage") and bound authorization
value (§3 "Authorization Value") of a key created by the key-lifecycle
operations of §4.3; the method bodies of TpmUtilityImpl are not under
src/. -/
structure TpmKey where
  usage : AsymmetricKeyUsage
  modulusBits : Nat
  exponent : Nat
  auth : List Nat
  seed : Nat
  deriving DecidableEq, Repr

/-- Modelled from the spec: a key blob (§3 "Key Blob": serialized private
portion plus public portion, producible by creation and consumable by
load).  The opaque serialization is represented structurally. -/
structure KeyBlob where
  usage : AsymmetricKeyUsage
  modulusBits : Nat
  exponent : Nat
  auth : List Nat
  seed : Nat
  deriving DecidableEq, Repr

/-- Public area of a key as returned by `GetKeyPublicArea`
(src/tpm_utility.h lines 153-155; spec §4.3: "algorithm, modulus,
exponent, usage flags"). -/
structure PublicArea where
  usage : AsymmetricKeyUsage
  modulusBits : Nat
  exponent : Nat
  deriving DecidableEq, Repr

/-- Primitive commands dispatched through the Command Factory, as observable
sub-steps.  The first three carry the authorization value the delegate for
that command was constructed from. -/
inductive Cmd where
  | changePlatformAuth (newAuth : List Nat)
  | nvGlobalLock (auth : List Nat)
  | hierarchyDisable (auth : List Nat)
  | getRandom (numBytes : Nat)
  | stir
  | pcrExtendCmd (index : Nat)
  | pcrReadCmd (index : Nat)
  | createKey
  | loadCmd
  | signCmd
  | verifyCmd
  | encryptCmd
  | decryptCmd
  | readPublic
  deriving DecidableEq, Repr

/-- A primitive command is platform-authorized when its authorization
delegate speaks for the Platform hierarchy (spec §4.1: the three
`InitializeTpm` sub-steps are the platform-authorized operations of this
layer). -/
def Cmd.platformAuthorized : Cmd → Bool
  | Cmd.changePlatformAuth _ => true
  | Cmd.nvGlobalLock _ => true
  | Cmd.hierarchyDisable _ => true
  | _ => false

/-- Number of PCRs in the fixed bank (spec §3: "a fixed bank of
hash-accumulator registers"; the TPM2.0-class bank has 24 registers). -/
def kNumPcrs : Nat := 24

/-- Modelled from the spec: the fixed 256-bit digest algorithm of §4.2
(SHA-256 per src/tpm_utility.h lines 65-71), represented by an executable
accumulator producing a 32-byte digest; the cryptographic primitive itself
is out of scope (spec §1). -/
def hashAcc (l : List Nat) : Nat :=
  l.foldl (fun a b => (a * 257 + b % 256 + 1) % 2 ^ 256) 1

/-- Expand a 256-bit accumulator into its 32 output bytes,
least-significant first. -/
def natToBytes32 (x : Nat) : List Nat :=
  (List.range 32).map (fun i => x / 256 ^ i % 256)

/-- The model digest function: 32 bytes (256 bits) for any input. -/
def modelHash (l : List Nat) : List Nat :=
  natToBytes32 (hashAcc l)

/-- Modelled from the spec: the module state the orchestration layer
mutates (hierarchy flags, platform authorization, NVRAM global write lock,
PCR bank, loaded-key table, RNG and creation counters); TpmUtilityImpl's
method bodies are not under src/. -/
structure TpmState where
  platformHierarchyEnabled : Bool
  platformAuth : List Nat
  nvGlobalWriteLock : Bool
  pcrs : List (List Nat)
  keys : List (Nat × TpmKey)
  nextHandle : Nat
  rngCounter : Nat
  seedCounter : Nat
  deriving DecidableEq, Repr

/-- Look up a loaded key by handle in the key table. -/
def findKey (h : Nat) : List (Nat × TpmKey) → Option TpmKey
  | [] => none
  | (h', k) :: rest => if h = h' then some k else findKey h rest

/-- Modelled from the spec: `TpmUtilityImpl::SetPlatformAuthorization`
(declared src/unnamed/part_000 line 33, body not under src/): "Sets TPM
platformAuth to |password|", a platform-authorized primitive command. -/
def setPlatformAuthorization (password : List Nat) (s : TpmState) :
    TPM_RC × TpmState × List Cmd :=
  (TPM_RC.Success, { s with platformAuth := password },
   [Cmd.changePlatformAuth password])

/-- Modelled from the spec: `TpmUtilityImpl::SetGlobalWriteLock` (declared
src/unnamed/part_000 line 37, body not under src/): "Sets the TPM NVRAM
global write lock.  This requires platform |authorization|."  The
authorization delegate is represented by the platform authorization value
it was constructed from; the command fails with `AuthorizationFailure`
when that value does not match the module's platform authorization, and
with `HandleError` when the platform hierarchy is disabled. -/
def setGlobalWriteLock (authorization : List Nat) (s : TpmState) :
    TPM_RC × TpmState × List Cmd :=
  if s.platformHierarchyEnabled = false then
    (TPM_RC.HandleError, s, [Cmd.nvGlobalLock authorization])
  else if authorization ≠ s.platformAuth then
    (TPM_RC.AuthorizationFailure, s, [Cmd.nvGlobalLock authorization])
  else
    (TPM_RC.Success, { s with nvGlobalWriteLock := true },
     [Cmd.nvGlobalLock authorization])

/-- Modelled from the spec: `TpmUtilityImpl::DisablePlatformHierarchy`
(declared src/unnamed/part_000 line 41, body not under src/): "Disables
the TPM platform hierarchy until the next startup.  This requires platform
|authorization|." -/
def disablePlatformHierarchy (authorization : List Nat) (s : TpmState) :
    TPM_RC × TpmState × List Cmd :=
  if s.platformHierarchyEnabled = false then
    (TPM_RC.HandleError, s, [Cmd.hierarchyDisable authorization])
  else if authorization ≠ s.platformAuth then
    (TPM_RC.AuthorizationFailure, s, [Cmd.hierarchyDisable authorization])
  else
    (TPM_RC.Success, { s with platformHierarchyEnabled := false },
     [Cmd.hierarchyDisable authorization])

/-- Modelled from the spec: `TpmUtilityImpl::InitializeTpm` (declared
src/unnamed/part_000 line 27, body not under src/; spec §4.1): idempotent
bring-up.  If the platform hierarchy is still enabled it sets platform
authorization to `freshRandom` (the process-local random value generated
for this call), sets the NVRAM global write lock under platform
authorization, and disables the platform hierarchy under platform
authorization, in that order, constructing each sub-step's authorization
delegate from `freshRandom`; if the hierarchy is already disabled it is a
no-op returning success. -/
def initializeTpm (freshRandom : List Nat) (s : TpmState) :
    TPM_RC × TpmState × List Cmd :=
  if s.platformHierarchyEnabled = false then
    (TPM_RC.Success, s, [])
  else
    let r1 := setPlatformAuthorization freshRandom s
    if r1.1 ≠ TPM_RC.Success then r1
    else
      let r2 := setGlobalWriteLock freshRandom r1.2.1
      if r2.1 ≠ TPM_RC.Success then (r2.1, r2.2.1, r1.2.2 ++ r2.2.2)
      else
        let r3 := disablePlatformHierarchy freshRandom r2.2.1
        (r3.1, r3.2.1, r1.2.2 ++ r2.2.2 ++ r3.2.2)

/-- Modelled from the spec: the per-call output cap of the primitive
random-number command (spec §4.2: "the underlying primitive may cap
per-call output size"); the TPM2.0-class cap is one digest buffer of 32
bytes. -/
def maxRandomChunk : Nat := 32

/-- The deterministic byte stream standing in for the module's random
generator (spec §1 puts the cryptographic engine out of scope). -/
def prngByte (i : Nat) : Nat :=
  (i * 37 + 11) % 256

/-- One chunked round of `GenerateRandom`: issue primitive `getRandom`
calls of at most `maxRandomChunk` bytes until `remaining` bytes have been
produced, concatenating outputs in order. -/
def genRandomLoop (remaining counter : Nat) : List Nat × Nat × List Cmd :=
  if _h : remaining = 0 then ([], counter, [])
  else
    let take := min remaining maxRandomChunk
    let bytes := (List.range take).map (fun i => prngByte (counter + i))
    let rest := genRandomLoop (remaining - take) (counter + take)
    (bytes ++ rest.1, rest.2.1, Cmd.getRandom take :: rest.2.2)
termination_by remaining
decreasing_by
  have h1 : 1 ≤ min remaining maxRandomChunk := by
    refine le_min ?_ ?_
    · omega
    · decide
  omega

/-- Modelled from the spec: `TpmUtility::GenerateRandom` (src/tpm_utility.h
lines 62-63, body not under src/; spec §4.2): returns exactly `numBytes`
bytes, assembled from chunked primitive calls concatenated in order. -/
def generateRandom (numBytes : Nat) (s : TpmState) :
    TPM_RC × List Nat × TpmState × List Cmd :=
  let r := genRandomLoop numBytes s.rngCounter
  (TPM_RC.Success, r.1, { s with rngCounter := r.2.1 }, r.2.2)

/-- Modelled from the spec: `TpmUtility::StirRandom` (src/tpm_utility.h
line 60, body not under src/; spec §4.2): feeds entropy into the module's
generator, side effect only. -/
def stirRandom (entropyData : List Nat) (s : TpmState) :
    TPM_RC × TpmState × List Cmd :=
  (TPM_RC.Success, { s with rngCounter := s.rngCounter + entropyData.length },
   [Cmd.stir])

/-- Modelled from the spec: `TpmUtility::ExtendPCR` (src/tpm_utility.h
lines 65-68, body not under src/): extends the PCR at `pcrIndex` with the
256-bit hash of `extendData`, i.e. `PCR[i] <- Hash(PCR[i] ++ Hash(data))`
(spec §4.2); fails with `InvalidIndex` for out-of-range indices.  The C++
index is a signed `int`, hence `Int`. -/
def extendPCR (pcrIndex : Int) (extendData : List Nat) (s : TpmState) :
    TPM_RC × TpmState × List Cmd :=
  if pcrIndex < 0 ∨ kNumPcrs ≤ pcrIndex then
    (TPM_RC.InvalidIndex, s, [])
  else
    let i := pcrIndex.toNat
    let old := s.pcrs.getD i []
    (TPM_RC.Success,
     { s with pcrs := s.pcrs.set i (modelHash (old ++ modelHash extendData)) },
     [Cmd.pcrExtendCmd i])

/-- Modelled from the spec: `TpmUtility::ReadPCR` (src/tpm_utility.h lines
70-72, body not under src/): returns the current accumulated digest of the
PCR; pure read, no authorization (spec §4.2); `InvalidIndex` out of
range. -/
def readPCR (pcrIndex : Int) (s : TpmState) :
    TPM_RC × List Nat × List Cmd :=
  if pcrIndex < 0 ∨ kNumPcrs ≤ pcrIndex then
    (TPM_RC.InvalidIndex, [], [])
  else
    (TPM_RC.Success, s.pcrs.getD pcrIndex.toNat [], [Cmd.pcrReadCmd pcrIndex.toNat])

/-- The modulus sizes the module supports (spec §4.3: `CreateRSAKeyPair`
"fails with `InvalidParameter` for unsupported modulus sizes"). -/
def supportedModulusBits (bits : Nat) : Bool :=
  bits = 1024 || bits = 2048

/-- Modelled from the spec: `TpmUtility::CreateRSAKeyPair`
(src/tpm_utility.h lines 137-141, body not under src/; spec §4.3):
generates a key under the module without loading it, returning a blob;
`InvalidParameter` for unsupported modulus sizes. -/
def createRSAKeyPair (keyType : AsymmetricKeyUsage) (modulusBits : Nat)
    (publicExponent : Nat) (password : List Nat) (s : TpmState) :
    TPM_RC × KeyBlob × TpmState × List Cmd :=
  if supportedModulusBits modulusBits = false then
    (TPM_RC.InvalidParameter,
     ⟨keyType, 0, 0, [], 0⟩, s, [])
  else
    (TPM_RC.Success,
     ⟨keyType, modulusBits, publicExponent, password, s.seedCounter⟩,
     { s with seedCounter := s.seedCounter + 1 }, [Cmd.createKey])

/-- The loaded key a blob deserializes to. -/
def keyOfBlob (b : KeyBlob) : TpmKey :=
  ⟨b.usage, b.modulusBits, b.exponent, b.auth, b.seed⟩

/-- Modelled from the spec: `TpmUtility::LoadKey` (src/tpm_utility.h lines
146-147, body not under src/; spec §4.3): loads a pregenerated key blob
and returns the loaded key's handle; `InvalidBlob` for a malformed blob
(a blob with an unsupported modulus size is malformed in this model). -/
def loadKey (keyBlob : KeyBlob) (s : TpmState) :
    TPM_RC × Nat × TpmState × List Cmd :=
  if supportedModulusBits keyBlob.modulusBits = false then
    (TPM_RC.InvalidBlob, 0, s, [])
  else
    (TPM_RC.Success, s.nextHandle,
     { s with keys := (s.nextHandle, keyOfBlob keyBlob) :: s.keys,
              nextHandle := s.nextHandle + 1 },
     [Cmd.loadCmd])

/-- Modelled from the spec: `TpmUtility::CreateAndLoadRSAKey`
(src/tpm_utility.h lines 128-131, body not under src/; spec §4.3):
convenience composition which creates a 2048-bit RSA key with public
exponent 0x10001 and then loads it in the same call, returning both the
live handle and the persistable blob; a load failure after a successful
create is reported as the load's own code. -/
def createAndLoadRSAKey (keyType : AsymmetricKeyUsage) (password : List Nat)
    (s : TpmState) : TPM_RC × Nat × KeyBlob × TpmState × List Cmd :=
  let r1 := createRSAKeyPair keyType 2048 0x10001 password s
  if r1.1 ≠ TPM_RC.Success then (r1.1, 0, r1.2.1, r1.2.2.1, r1.2.2.2)
  else
    let r2 := loadKey r1.2.1 r1.2.2.1
    (r2.1, r2.2.1, r1.2.1, r2.2.2.1, r1.2.2.2 ++ r2.2.2.2)

/-- Modelled from the spec: `TpmUtility::GetKeyPublicArea`
(src/tpm_utility.h lines 154-155, body not under src/; spec §4.3): returns
the public portion of the object at `handle` without requiring
authorization. -/
def getKeyPublicArea (handle : Nat) (s : TpmState) :
    TPM_RC × PublicArea × List Cmd :=
  match findKey handle s.keys with
  | none => (TPM_RC.InvalidHandle, ⟨AsymmetricKeyUsage.kDecryptKey, 0, 0⟩, [])
  | some k =>
    (TPM_RC.Success, ⟨k.usage, k.modulusBits, k.exponent⟩, [Cmd.readPublic])

/-- Whether a key's usage tag permits decryption (spec §3: usage is
"enforced by the module"). -/
def canDecrypt : AsymmetricKeyUsage → Bool
  | AsymmetricKeyUsage.kDecryptKey => true
  | AsymmetricKeyUsage.kSignKey => false
  | AsymmetricKeyUsage.kDecryptAndSignKey => true

/-- Whether a key's usage tag permits signing. -/
def canSign : AsymmetricKeyUsage → Bool
  | AsymmetricKeyUsage.kDecryptKey => false
  | AsymmetricKeyUsage.kSignKey => true
  | AsymmetricKeyUsage.kDecryptAndSignKey => true

/-- Modelled from the spec: the plaintext the module computes when a
decryption is authorized and well-formed (the RSA math itself is out of
scope, spec §1); a keyed executable stand-in. -/
def decryptBytes (k : TpmKey) (scheme hashAlg : Nat) (ciphertext : List Nat) :
    List Nat :=
  modelHash (natToBytes32 k.seed ++ [scheme % 256, hashAlg % 256] ++ ciphertext)

/-- Modelled from the spec: `TpmUtility::AsymmetricDecrypt`
(src/tpm_utility.h lines 89-94, body not under src/; spec §4.4): requires
authorization matching the key's password; `AuthorizationFailure` on
mismatch, `InvalidParameter` if the ciphertext size mismatches the key
modulus, `HandleError` for an unknown handle. -/
def asymmetricDecrypt (keyHandle : Nat) (scheme hashAlg : Nat)
    (password : List Nat) (ciphertext : List Nat) (s : TpmState) :
    TPM_RC × List Nat × List Cmd :=
  match findKey keyHandle s.keys with
  | none => (TPM_RC.HandleError, [], [])
  | some k =>
    if password ≠ k.auth then
      (TPM_RC.AuthorizationFailure, [], [Cmd.decryptCmd])
    else if canDecrypt k.usage = false then
      (TPM_RC.AuthorizationFailure, [], [Cmd.decryptCmd])
    else if ciphertext.length ≠ k.modulusBits / 8 then
      (TPM_RC.InvalidParameter, [], [Cmd.decryptCmd])
    else
      (TPM_RC.Success, decryptBytes k scheme hashAlg ciphertext,
       [Cmd.decryptCmd])

/-- Modelled from the spec: `TpmUtility::AsymmetricEncrypt`
(src/tpm_utility.h lines 78-82, body not under src/; spec §4.4): public
operation, no authorization required. -/
def asymmetricEncrypt (keyHandle : Nat) (scheme hashAlg : Nat)
    (plaintext : List Nat) (s : TpmState) :
    TPM_RC × List Nat × List Cmd :=
  match findKey keyHandle s.keys with
  | none => (TPM_RC.HandleError, [], [])
  | some k =>
    (TPM_RC.Success,
     modelHash (natToBytes32 k.exponent ++ [scheme % 256, hashAlg % 256] ++ plaintext),
     [Cmd.encryptCmd])

/-- Modelled from the spec: the signature the module produces over a digest
with a key (the RSA math is out of scope, spec §1).  It depends on the
key's private material (`seed`), the scheme, the hash algorithm and the
digest — not on the key's authorization value. -/
def sigOf (k : TpmKey) (scheme hashAlg : Nat) (digest : List Nat) :
    List Nat :=
  modelHash (natToBytes32 k.seed ++ [0, scheme % 256, hashAlg % 256] ++ digest)

/-- Modelled from the spec: `TpmUtility::Sign` (src/tpm_utility.h lines
103-108, body not under src/; spec §4.4): signs `digest` with the key at
`keyHandle`; requires authorization. -/
def signDigest (keyHandle : Nat) (scheme hashAlg : Nat) (password : List Nat)
    (digest : List Nat) (s : TpmState) : TPM_RC × List Nat × List Cmd :=
  match findKey keyHandle s.keys with
  | none => (TPM_RC.HandleError, [], [])
  | some k =>
    if password ≠ k.auth then
      (TPM_RC.AuthorizationFailure, [], [Cmd.signCmd])
    else if canSign k.usage = false then
      (TPM_RC.AuthorizationFailure, [], [Cmd.signCmd])
    else
      (TPM_RC.Success, sigOf k scheme hashAlg digest, [Cmd.signCmd])

/-- Modelled from the spec: `TpmUtility::Verify` (src/tpm_utility.h lines
116-120, body not under src/; spec §4.4): public operation taking no
authorization; returns `Success` exactly when the signature validates over
the digest under the key, and the module-reported `SignatureInvalid` when
it does not; `HandleError` for an unknown handle. -/
def verifySignature (keyHandle : Nat) (scheme hashAlg : Nat)
    (digest : List Nat) (signature : List Nat) (s : TpmState) :
    TPM_RC × List Cmd :=
  match findKey keyHandle s.keys with
  | none => (TPM_RC.HandleError, [])
  | some k =>
    if signature = sigOf k scheme hashAlg digest then
      (TPM_RC.Success, [Cmd.verifyCmd])
    else
      (TPM_RC.SignatureInvalid, [Cmd.verifyCmd])

/-- Modelled from the spec: `TpmUtility::Shutdown` (src/tpm_utility.h line
47): "Synchronously performs a TPM shutdown operation.  It should always be
successful."  The C++ declaration returns `void`; the model returns `Unit`
accordingly and is total (it cannot fail). -/
def shutdown (s : TpmState) : Unit × TpmState :=
  ((), s)

/-- The return type of `TpmUtility::Shutdown` as declared in
src/tpm_utility.h line 47 (`virtual void Shutdown() = 0;`): C++ `void`,
embedded as `Unit`. -/
abbrev ShutdownResult : Type := Unit

/-- The public result-code-returning operations of the utility (every
`TpmUtility` method of src/tpm_utility.h whose declared return type is
`TPM_RC`; `Shutdown`, declared `void`, is `shutdown` above).  `Startup`,
`Clear`, `TakeOwnership`, `GetKeyName` are modelled only as far as the
claims need them. -/
inductive Op where
  | initTpm (freshRandom : List Nat)
  | stirRandomOp (entropyData : List Nat)
  | generateRandomOp (numBytes : Nat)
  | extendPCROp (pcrIndex : Int) (extendData : List Nat)
  | readPCROp (pcrIndex : Int)
  | asymmetricEncryptOp (keyHandle scheme hashAlg : Nat) (plaintext : List Nat)
  | asymmetricDecryptOp (keyHandle scheme hashAlg : Nat)
      (password ciphertext : List Nat)
  | signOp (keyHandle scheme hashAlg : Nat) (password digest : List Nat)
  | verifyOp (keyHandle scheme hashAlg : Nat) (digest signature : List Nat)
  | createAndLoadRSAKeyOp (keyType : AsymmetricKeyUsage) (password : List Nat)
  | createRSAKeyPairOp (keyType : AsymmetricKeyUsage)
      (modulusBits publicExponent : Nat) (password : List Nat)
  | loadKeyOp (keyBlob : KeyBlob)
  | getKeyPublicAreaOp (handle : Nat)
  deriving DecidableEq, Repr

/-- Dispatch a public operation, returning its result code, the updated
module state and the trace of primitive commands it issued. -/
def runOp (op : Op) (s : TpmState) : TPM_RC × TpmState × List Cmd :=
  match op with
  | Op.initTpm r => initializeTpm r s
  | Op.stirRandomOp e => stirRandom e s
  | Op.generateRandomOp n =>
    let r := generateRandom n s
    (r.1, r.2.2.1, r.2.2.2)
  | Op.extendPCROp i d => extendPCR i d s
  | Op.readPCROp i =>
    let r := readPCR i s
    (r.1, s, r.2.2)
  | Op.asymmetricEncryptOp h sc ha p =>
    let r := asymmetricEncrypt h sc ha p s
    (r.1, s, r.2.2)
  | Op.asymmetricDecryptOp h sc ha pw c =>
    let r := asymmetricDecrypt h sc ha pw c s
    (r.1, s, r.2.2)
  | Op.signOp h sc ha pw d =>
    let r := signDigest h sc ha pw d s
    (r.1, s, r.2.2)
  | Op.verifyOp h sc ha d sg =>
    let r := verifySignature h sc ha d sg s
    (r.1, s, r.2)
  | Op.createAndLoadRSAKeyOp u pw =>
    let r := createAndLoadRSAKey u pw s
    (r.1, r.2.2.2.1, r.2.2.2.2)
  | Op.createRSAKeyPairOp u mb e pw =>
    let r := createRSAKeyPair u mb e pw s
    (r.1, r.2.2.1, r.2.2.2)
  | Op.loadKeyOp b =>
    let r := loadKey b s
    (r.1, r.2.2.1, r.2.2.2)
  | Op.getKeyPublicAreaOp h =>
    let r := getKeyPublicArea h s
    (r.1, s, r.2.2)

/-- Run a sequence of public operations, concatenating the primitive
command traces in order. -/
def runOps : List Op → TpmState → TpmState × List Cmd
  | [], s => (s, [])
  | op :: ops, s =>
    let r := runOp op s
    let r' := runOps ops r.2.1
    (r'.1, r.2.2 ++ r'.2)

/-- The PCR bank at power-on: every register holds the all-zero 256-bit
digest. -/
def initialPcrBank : List (List Nat) :=
  List.replicate kNumPcrs (List.replicate 32 0)

/-- A concrete post-boot state with the platform hierarchy still
enabled. -/
def freshState : TpmState :=
  ⟨true, [], false, initialPcrBank, [], 1, 0, 0⟩

/-- A concrete loaded signing/decryption key used to instantiate
theorems. -/
def sampleKey : TpmKey :=
  ⟨AsymmetricKeyUsage.kDecryptAndSignKey, 2048, 0x10001, [1, 2, 3], 7⟩

/-- A concrete state with the platform hierarchy disabled and `sampleKey`
loaded at handle 5. -/
def sampleState : TpmState :=
  ⟨false, [4, 4], true, initialPcrBank, [(5, sampleKey)], 6, 0, 1⟩

/-- A concrete state differing from `sampleState` only in the loaded key's
authorization value. -/
def sampleState2 : TpmState :=
  ⟨false, [4, 4], true, initialPcrBank,
   [(5, ⟨AsymmetricKeyUsage.kDecryptAndSignKey, 2048, 0x10001, [9, 9], 7⟩)],
   6, 0, 1⟩

/-- Run a sequence of `ExtendPCR` calls against one register. -/
def runExtendsAt (i : Int) : List (List Nat) → TpmState → TpmState
  | [], s => s
  | d :: ds, s => runExtendsAt i ds (extendPCR i d s).2.1

/-- A key with its authorization value erased (the non-secret part of a
loaded key). -/
def eraseKeyAuth (k : TpmKey) : TpmKey :=
  { k with auth := [] }

/-- A key table with every authorization value erased. -/
def eraseAuth (keys : List (Nat × TpmKey)) : List (Nat × TpmKey) :=
  keys.map (fun p => (p.1, eraseKeyAuth p.2))

/-- Count the primitive `getRandom` calls in a command trace. -/
def getRandomCallCount (cmds : List Cmd) : Nat :=
  cmds.countP (fun c => match c with
    | Cmd.getRandom _ => true
    | _ => false)

/-- With the platform hierarchy enabled, `initializeTpm` runs the three
sub-steps and reports their combined effect. -/
lemma initializeTpm_of_enabled (r : List Nat) (s : TpmState)
    (h : s.platformHierarchyEnabled = true) :
    initializeTpm r s =
      (TPM_RC.Success,
       { s with platformAuth := r, nvGlobalWriteLock := true,
                platformHierarchyEnabled := false },
       [Cmd.changePlatformAuth r, Cmd.nvGlobalLock r, Cmd.hierarchyDisable r]) := by
  simp [initializeTpm, setPlatformAuthorization, setGlobalWriteLock,
        disablePlatformHierarchy, h]

/-- With the platform hierarchy disabled, `initializeTpm` is a no-op. -/
lemma initializeTpm_of_disabled (r : List Nat) (s : TpmState)
    (h : s.platformHierarchyEnabled = false) :
    initializeTpm r s = (TPM_RC.Success, s, []) := by
  simp [initializeTpm, h]

/-- `initializeTpm` always leaves the platform hierarchy disabled. -/
lemma initializeTpm_disables (r : List Nat) (s : TpmState) :
    ((initializeTpm r s).2.1).platformHierarchyEnabled = false := by
  cases h : s.platformHierarchyEnabled
  · rw [initializeTpm_of_disabled r s h]
    exact h
  · rw [initializeTpm_of_enabled r s h]

/-- Every primitive command issued by the chunking loop of
`GenerateRandom` is a `getRandom` call. -/
lemma genRandomLoop_cmds_getRandom (remaining counter : Nat) :
    ∀ c ∈ (genRandomLoop remaining counter).2.2,
      ∃ n, c = Cmd.getRandom n := by
  induction remaining using Nat.strong_induction_on generalizing counter with
  | _ remaining ih =>
    rw [genRandomLoop]
    by_cases h : remaining = 0
    · simp [h]
    · simp only [h, dite_false]
      intro c hc
      rcases List.mem_cons.mp hc with rfl | hmem
      · exact ⟨min remaining maxRandomChunk, rfl⟩
      · have hlt : remaining - min remaining maxRandomChunk < remaining := by
          have : 1 ≤ min remaining maxRandomChunk := by
            refine le_min (by omega) (by decide)
          omega
        exact ih _ hlt _ _ hmem

/-- No primitive command issued from a state with the platform hierarchy
disabled is platform-authorized, and the hierarchy stays disabled. -/
lemma runOp_preserves_disabled (op : Op) (s : TpmState)
    (h : s.platformHierarchyEnabled = false) :
    ((runOp op s).2.1).platformHierarchyEnabled = false ∧
      ∀ c ∈ (runOp op s).2.2, c.platformAuthorized = false := by
  cases op with
  | initTpm r =>
    rw [runOp, initializeTpm_of_disabled r s h]
    simp [h]
  | stirRandomOp e =>
    simp [runOp, stirRandom, h, Cmd.platformAuthorized]
  | generateRandomOp n =>
    constructor
    · simp [runOp, generateRandom]
      exact h
    · intro c hc
      simp only [runOp, generateRandom] at hc
      obtain ⟨m, rfl⟩ := genRandomLoop_cmds_getRandom n s.rngCounter c hc
      rfl
  | extendPCROp i d =>
    by_cases hb : i < 0 ∨ (kNumPcrs : Int) ≤ i
    · simp [runOp, extendPCR, hb, h]
    · simp [runOp, extendPCR, hb, h, Cmd.platformAuthorized]
  | readPCROp i =>
    by_cases hb : i < 0 ∨ (kNumPcrs : Int) ≤ i
    · simp [runOp, readPCR, hb, h]
    · simp [runOp, readPCR, hb, h, Cmd.platformAuthorized]
  | asymmetricEncryptOp kh sc ha p =>
    cases hk : findKey kh s.keys <;>
      simp [runOp, asymmetricEncrypt, hk, h, Cmd.platformAuthorized]
  | asymmetricDecryptOp kh sc ha pw c =>
    cases hk : findKey kh s.keys with
    | none => simp [runOp, asymmetricDecrypt, hk, h]
    | some k =>
      constructor
      · simp [runOp, asymmetricDecrypt, hk, h]
      · intro cmd hcmd
        simp only [runOp, asymmetricDecrypt, hk] at hcmd
        repeat' split at hcmd
        all_goals simp_all [Cmd.platformAuthorized]
  | signOp kh sc ha pw d =>
    cases hk : findKey kh s.keys with
    | none => simp [runOp, signDigest, hk, h]
    | some k =>
      constructor
      · simp [runOp, signDigest, hk, h]
      · intro cmd hcmd
        simp only [runOp, signDigest, hk] at hcmd
        repeat' split at hcmd
        all_goals simp_all [Cmd.platformAuthorized]
  | verifyOp kh sc ha d sg =>
    cases hk : findKey kh s.keys with
    | none => simp [runOp, verifySignature, hk, h]
    | some k =>
      constructor
      · simp [runOp, verifySignature, hk, h]
      · intro cmd hcmd
        simp only [runOp, verifySignature, hk] at hcmd
        split at hcmd <;> simp_all [Cmd.platformAuthorized]
  | createAndLoadRSAKeyOp u pw =>
    simp [runOp, createAndLoadRSAKey, createRSAKeyPair, loadKey,
          supportedModulusBits, h, Cmd.platformAuthorized]
  | createRSAKeyPairOp u mb e pw =>
    by_cases hm : supportedModulusBits mb = false
    · simp [runOp, createRSAKeyPair, hm, h]
    · simp [runOp, createRSAKeyPair, hm, h, Cmd.platformAuthorized]
  | loadKeyOp b =>
    by_cases hm : supportedModulusBits b.modulusBits = false
    · simp [runOp, loadKey, hm, h]
    · simp [runOp, loadKey, hm, h, Cmd.platformAuthorized]
  | getKeyPublicAreaOp kh =>
    cases hk : findKey kh s.keys <;>
      simp [runOp, getKeyPublicArea, hk, h, Cmd.platformAuthorized]

/-- The chunking loop of `GenerateRandom` produces exactly the requested
number of bytes. -/
lemma genRandomLoop_length (remaining counter : Nat) :
    (genRandomLoop remaining counter).1.length = remaining := by
  induction remaining using Nat.strong_induction_on generalizing counter with
  | _ remaining ih =>
    rw [genRandomLoop]
    by_cases h : remaining = 0
    · simp [h]
    · have hmin : 1 ≤ min remaining maxRandomChunk :=
        le_min (by omega) (by decide)
      have hlt : remaining - min remaining maxRandomChunk < remaining := by omega
      simp only [h, dite_false, List.length_append, List.length_map,
                 List.length_range]
      rw [ih _ hlt]
      omega

/-- The chunking loop of `GenerateRandom` issues `ceil(remaining /
maxRandomChunk)` primitive calls. -/
lemma genRandomLoop_calls (remaining counter : Nat) :
    (genRandomLoop remaining counter).2.2.length =
      (remaining + maxRandomChunk - 1) / maxRandomChunk := by
  induction remaining using Nat.strong_induction_on generalizing counter with
  | _ remaining ih =>
    rw [genRandomLoop]
    by_cases h : remaining = 0
    · simp [h, maxRandomChunk]
    · have hmin : 1 ≤ min remaining maxRandomChunk :=
        le_min (by omega) (by decide)
      have hlt : remaining - min remaining maxRandomChunk < remaining := by omega
      simp only [h, dite_false, List.length_cons]
      rw [ih _ hlt]
      simp only [maxRandomChunk] at *
      omega

/-- Reading the register just written by `List.set`. -/
lemma getD_set_self {α : Type} (l : List α) (i : Nat) (v d : α)
    (h : i < l.length) : (l.set i v).getD i d = v := by
  rw [List.getD_eq_getElem _ _ (by simpa using h)]
  simp [List.getElem_set]

/-- `extendPCR` at a valid index leaves the register bank's length
unchanged. -/
lemma extendPCR_length (i : Int) (d : List Nat) (s : TpmState) :
    ((extendPCR i d s).2.1).pcrs.length = s.pcrs.length := by
  by_cases hb : i < 0 ∨ (kNumPcrs : Int) ≤ i
  · simp [extendPCR, hb]
  · simp [extendPCR, hb]

/-- `extendPCR` at a valid index folds the register deterministically: the
new value depends only on the old register value and the data. -/
lemma extendPCR_getD (i : Int) (d : List Nat) (s : TpmState)
    (h0 : 0 ≤ i) (hn : i < (kNumPcrs : Int))
    (hw : i.toNat < s.pcrs.length) :
    ((extendPCR i d s).2.1).pcrs.getD i.toNat [] =
      modelHash (s.pcrs.getD i.toNat [] ++ modelHash d) := by
  have hb : ¬(i < 0 ∨ (kNumPcrs : Int) ≤ i) := by omega
  simp only [extendPCR, hb, if_false]
  exact getD_set_self _ _ _ _ hw

/-- Determinism of repeated extension: from equal register values (in
well-sized banks), the same sequence of extends yields the same
register value. -/
lemma runExtendsAt_deterministic (i : Int) (ds : List (List Nat))
    (s1 s2 : TpmState) (h0 : 0 ≤ i) (hn : i < (kNumPcrs : Int))
    (hw1 : i.toNat < s1.pcrs.length) (hw2 : i.toNat < s2.pcrs.length)
    (heq : s1.pcrs.getD i.toNat [] = s2.pcrs.getD i.toNat []) :
    (runExtendsAt i ds s1).pcrs.getD i.toNat [] =
      (runExtendsAt i ds s2).pcrs.getD i.toNat [] := by
  induction ds generalizing s1 s2 with
  | nil => simpa [runExtendsAt] using heq
  | cons d ds ih =>
    simp only [runExtendsAt]
    refine ih _ _ ?_ ?_ ?_
    · rw [extendPCR_length]; exact hw1
    · rw [extendPCR_length]; exact hw2
    · rw [extendPCR_getD i d s1 h0 hn hw1, extendPCR_getD i d s2 h0 hn hw2,
          heq]

/-- Looking a handle up in an authorization-erased table is looking it up
and then erasing. -/
lemma findKey_eraseAuth (h : Nat) (l : List (Nat × TpmKey)) :
    findKey h (eraseAuth l) = Option.map eraseKeyAuth (findKey h l) := by
  induction l with
  | nil => rfl
  | cons p rest ih =>
    by_cases hp : h = p.1
    · simp [eraseAuth, findKey, hp]
    · simpa [eraseAuth, findKey, hp] using ih

/-- The signature function reads only the non-authorization part of a
key. -/
lemma sigOf_eraseKeyAuth (k : TpmKey) (sc ha : Nat) (d : List Nat) :
    sigOf (eraseKeyAuth k) sc ha d = sigOf k sc ha d := rfl

/-- From a platform-disabled state, no sequence of public operations ever
issues a platform-authorized primitive command. -/
lemma runOps_no_platform_cmds (ops : List Op) (s : TpmState)
    (h : s.platformHierarchyEnabled = false) :
    ∀ c ∈ (runOps ops s).2, c.platformAuthorized = false := by
  induction ops generalizing s with
  | nil => simp [runOps]
  | cons op ops ih =>
    intro c hc
    have hop := runOp_preserves_disabled op s h
    simp only [runOps] at hc
    rcases List.mem_append.mp hc with hmem | hmem
    · exact hop.2 c hmem
    · exact ih (runOp op s).2.1 hop.1 c hmem

/-- Claim C1: with the platform hierarchy still enabled, `InitializeTpm`
performs exactly three sub-steps in order — set platform authorization to
the process-local random value, set the NVRAM global write lock under
platform authorization, disable the platform hierarchy under platform
authorization — and every sub-step's authorization delegate carries the
value `freshRandom` set in this very call (the statement holds for every
preexisting `s.platformAuth`, so no delegate is built from a preexisting
value). -/
theorem initializeTpm_three_ordered_substeps_same_auth
    (freshRandom : List Nat) (s : TpmState)
    (h : s.platformHierarchyEnabled = true) :
    initializeTpm freshRandom s =
      (TPM_RC.Success,
       { s with platformAuth := freshRandom, nvGlobalWriteLock := true,
                platformHierarchyEnabled := false },
       [Cmd.changePlatformAuth freshRandom, Cmd.nvGlobalLock freshRandom,
        Cmd.hierarchyDisable freshRandom]) :=
  initializeTpm_of_enabled freshRandom s h

/-- Witness for C1 at a concrete enabled state. -/
theorem initializeTpm_three_ordered_substeps_same_auth_witness :
    initializeTpm [9] freshState =
      (TPM_RC.Success,
       { freshState with platformAuth := [9], nvGlobalWriteLock := true,
                         platformHierarchyEnabled := false },
       [Cmd.changePlatformAuth [9], Cmd.nvGlobalLock [9],
        Cmd.hierarchyDisable [9]]) :=
  initializeTpm_three_ordered_substeps_same_auth [9] freshState rfl

/-- Claim C2: once the platform hierarchy is disabled, `InitializeTpm` is
a no-op returning `Success` that issues no primitive command at all;
`InitializeTpm` always leaves the hierarchy disabled; and from any
disabled state no sequence of public operations ever issues a
platform-authorized primitive command (until a reset, which no operation
models). -/
theorem initializeTpm_noop_after_disable_no_platform_ops :
    (∀ (r : List Nat) (s : TpmState), s.platformHierarchyEnabled = false →
       initializeTpm r s = (TPM_RC.Success, s, [])) ∧
    (∀ (r : List Nat) (s : TpmState),
       ((initializeTpm r s).2.1).platformHierarchyEnabled = false) ∧
    (∀ (ops : List Op) (s : TpmState), s.platformHierarchyEnabled = false →
       ∀ c ∈ (runOps ops s).2, c.platformAuthorized = false) :=
  ⟨initializeTpm_of_disabled, initializeTpm_disables, runOps_no_platform_cmds⟩

/-- Witness for C2: a concrete second `InitializeTpm` call is a no-op, and
a concrete operation sequence from the disabled state issues no
platform-authorized command. -/
theorem initializeTpm_noop_after_disable_no_platform_ops_witness :
    initializeTpm [1] sampleState = (TPM_RC.Success, sampleState, []) ∧
    ∀ c ∈ (runOps [Op.generateRandomOp 40, Op.extendPCROp 0 [1],
                   Op.initTpm [2]] sampleState).2,
      c.platformAuthorized = false :=
  ⟨initializeTpm_noop_after_disable_no_platform_ops.1 [1] sampleState rfl,
   initializeTpm_noop_after_disable_no_platform_ops.2.2
     [Op.generateRandomOp 40, Op.extendPCROp 0 [1], Op.initTpm [2]]
     sampleState rfl⟩

/-- Claim C3: for a loaded key, `AsymmetricDecrypt` with a non-matching
password returns `AuthorizationFailure` and never `Success`, regardless of
the ciphertext; and with matching authorization it returns
`InvalidParameter` when the ciphertext size mismatches the key modulus. -/
theorem asymmetricDecrypt_auth_and_size_errors
    (s : TpmState) (kh sc ha : Nat) (k : TpmKey) (pw c : List Nat)
    (hk : findKey kh s.keys = some k) :
    (pw ≠ k.auth →
       (asymmetricDecrypt kh sc ha pw c s).1 = TPM_RC.AuthorizationFailure ∧
       (asymmetricDecrypt kh sc ha pw c s).1 ≠ TPM_RC.Success) ∧
    (pw = k.auth → canDecrypt k.usage = true →
       c.length ≠ k.modulusBits / 8 →
       (asymmetricDecrypt kh sc ha pw c s).1 = TPM_RC.InvalidParameter) := by
  constructor
  · intro hpw
    simp [asymmetricDecrypt, hk, hpw]
  · intro hpw hcd hlen
    simp [asymmetricDecrypt, hk, hpw, hcd, hlen]

/-- Witness for C3 at the concrete loaded key of `sampleState` (auth
`[1, 2, 3]`, 2048-bit modulus): a wrong password is rejected, and a
mismatched ciphertext size under the right password is
`InvalidParameter`. -/
theorem asymmetricDecrypt_auth_and_size_errors_witness :
    ((asymmetricDecrypt 5 1 2 [7] [0] sampleState).1 =
       TPM_RC.AuthorizationFailure ∧
     (asymmetricDecrypt 5 1 2 [7] [0] sampleState).1 ≠ TPM_RC.Success) ∧
    (asymmetricDecrypt 5 1 2 [1, 2, 3] [0] sampleState).1 =
      TPM_RC.InvalidParameter :=
  ⟨(asymmetricDecrypt_auth_and_size_errors sampleState 5 1 2 sampleKey
      [7] [0] rfl).1 (by decide),
   (asymmetricDecrypt_auth_and_size_errors sampleState 5 1 2 sampleKey
      [1, 2, 3] [0] rfl).2 rfl rfl (by decide)⟩

/-- Claim C4: for a loaded key, `Verify` returns `Success` exactly when
the signature validates over the digest under that key; a signature just
produced by `Sign` with the same scheme/hash/digest verifies as `Success`;
and a non-validating signature yields `SignatureInvalid`, a code distinct
from the transport and format error codes. -/
theorem verify_success_iff_valid_and_error_distinct
    (s : TpmState) (kh sc ha : Nat) (k : TpmKey) (d sg : List Nat)
    (hk : findKey kh s.keys = some k) :
    ((verifySignature kh sc ha d sg s).1 = TPM_RC.Success ↔
       sg = sigOf k sc ha d) ∧
    (canSign k.usage = true → ∀ pw, pw = k.auth →
       (signDigest kh sc ha pw d s).1 = TPM_RC.Success ∧
       (verifySignature kh sc ha d
          (signDigest kh sc ha pw d s).2.1 s).1 = TPM_RC.Success) ∧
    (sg ≠ sigOf k sc ha d →
       (verifySignature kh sc ha d sg s).1 = TPM_RC.SignatureInvalid ∧
       TPM_RC.SignatureInvalid ≠ TPM_RC.TransportFailure ∧
       TPM_RC.SignatureInvalid ≠ TPM_RC.FormatError) := by
  refine ⟨?_, ?_, ?_⟩
  · by_cases hv : sg = sigOf k sc ha d <;>
      simp [verifySignature, hk, hv]
  · intro hcs pw hpw
    simp [signDigest, verifySignature, hk, hpw, hcs]
  · intro hv
    simp [verifySignature, hk, hv]

set_option maxRecDepth 4096 in
/-- Witness for C4 at the concrete loaded key of `sampleState`: a
sign-then-verify round trip succeeds and a corrupted signature is
`SignatureInvalid`, distinct from transport/format errors. -/
theorem verify_success_iff_valid_and_error_distinct_witness :
    ((signDigest 5 1 2 [1, 2, 3] [7, 7] sampleState).1 = TPM_RC.Success ∧
     (verifySignature 5 1 2 [7, 7]
        (signDigest 5 1 2 [1, 2, 3] [7, 7] sampleState).2.1
        sampleState).1 = TPM_RC.Success) ∧
    ((verifySignature 5 1 2 [7, 7] [0] sampleState).1 =
       TPM_RC.SignatureInvalid ∧
     TPM_RC.SignatureInvalid ≠ TPM_RC.TransportFailure ∧
     TPM_RC.SignatureInvalid ≠ TPM_RC.FormatError) :=
  ⟨(verify_success_iff_valid_and_error_distinct sampleState 5 1 2 sampleKey
      [7, 7] [0] rfl).2.1 rfl [1, 2, 3] rfl,
   (verify_success_iff_valid_and_error_distinct sampleState 5 1 2 sampleKey
      [7, 7] [0] rfl).2.2 (by decide)⟩

set_option maxRecDepth 8192 in
/-- Claim C5: for every valid PCR index, `ExtendPCR(i, d)` succeeds and a
subsequent `ReadPCR(i)` yields `Hash(old ++ Hash(d))` with the fixed
256-bit digest; repeated extension is deterministic (the same sequence of
extends from the same start value yields the same digest); it is not
commutative (a concrete pair of data extended in the two orders yields
different digests); and `ExtendPCR` fails with `InvalidIndex` for every
out-of-range index. -/
theorem extendPCR_hash_fold_deterministic_noncommutative :
    (∀ (s : TpmState) (i : Int) (d : List Nat),
       0 ≤ i → i < (kNumPcrs : Int) → i.toNat < s.pcrs.length →
       (extendPCR i d s).1 = TPM_RC.Success ∧
       (readPCR i (extendPCR i d s).2.1).1 = TPM_RC.Success ∧
       (readPCR i (extendPCR i d s).2.1).2.1 =
         modelHash (s.pcrs.getD i.toNat [] ++ modelHash d)) ∧
    (∀ (s1 s2 : TpmState) (i : Int) (ds : List (List Nat)),
       0 ≤ i → i < (kNumPcrs : Int) →
       i.toNat < s1.pcrs.length → i.toNat < s2.pcrs.length →
       s1.pcrs.getD i.toNat [] = s2.pcrs.getD i.toNat [] →
       (runExtendsAt i ds s1).pcrs.getD i.toNat [] =
         (runExtendsAt i ds s2).pcrs.getD i.toNat []) ∧
    (runExtendsAt 0 [[0], [1]] freshState).pcrs.getD 0 [] ≠
      (runExtendsAt 0 [[1], [0]] freshState).pcrs.getD 0 [] ∧
    (∀ (s : TpmState) (i : Int) (d : List Nat),
       (i < 0 ∨ (kNumPcrs : Int) ≤ i) →
       extendPCR i d s = (TPM_RC.InvalidIndex, s, [])) := by
  refine ⟨?_, fun s1 s2 i ds => runExtendsAt_deterministic i ds s1 s2, ?_, ?_⟩
  · intro s i d h0 hn hw
    have hb : ¬(i < 0 ∨ (kNumPcrs : Int) ≤ i) := by omega
    refine ⟨by simp [extendPCR, hb], by simp [readPCR, hb], ?_⟩
    simp only [readPCR, hb, if_false]
    exact extendPCR_getD i d s h0 hn hw
  · decide
  · intro s i d hb
    simp [extendPCR, hb]

/-- Witness for C5: extending PCR 3 of the freshly booted bank with `[5]`
succeeds and reads back as the hash fold, and index 99 is rejected with
`InvalidIndex`. -/
theorem extendPCR_hash_fold_deterministic_noncommutative_witness :
    ((extendPCR 3 [5] freshState).1 = TPM_RC.Success ∧
     (readPCR 3 (extendPCR 3 [5] freshState).2.1).1 = TPM_RC.Success ∧
     (readPCR 3 (extendPCR 3 [5] freshState).2.1).2.1 =
       modelHash (freshState.pcrs.getD 3 [] ++ modelHash [5])) ∧
    extendPCR 99 [1] freshState = (TPM_RC.InvalidIndex, freshState, []) :=
  ⟨extendPCR_hash_fold_deterministic_noncommutative.1 freshState 3 [5]
     (by decide) (by decide) (by decide),
   extendPCR_hash_fold_deterministic_noncommutative.2.2.2 freshState 99 [1]
     (by decide)⟩

/-- Claim C6: `GenerateRandom(n)` returns `Success` with exactly `n` bytes
of output, assembled from chunked primitive `getRandom` calls concatenated
in order, and the number of primitive calls is `ceil(n / maxRandomChunk)`
(every primitive command in its trace is a `getRandom`). -/
theorem generateRandom_exact_length_and_chunk_count (n : Nat) (s : TpmState) :
    (generateRandom n s).1 = TPM_RC.Success ∧
    (generateRandom n s).2.1.length = n ∧
    getRandomCallCount (generateRandom n s).2.2.2 =
      (n + maxRandomChunk - 1) / maxRandomChunk ∧
    ∀ c ∈ (generateRandom n s).2.2.2, ∃ m, c = Cmd.getRandom m := by
  have hall : ∀ c ∈ (genRandomLoop n s.rngCounter).2.2,
      ∃ m, c = Cmd.getRandom m :=
    genRandomLoop_cmds_getRandom n s.rngCounter
  refine ⟨rfl, ?_, ?_, hall⟩
  · simpa [generateRandom] using genRandomLoop_length n s.rngCounter
  · have hcount : getRandomCallCount (genRandomLoop n s.rngCounter).2.2 =
        (genRandomLoop n s.rngCounter).2.2.length := by
      rw [getRandomCallCount, List.countP_eq_length]
      intro c hc
      obtain ⟨m, rfl⟩ := hall c hc
      rfl
    simpa [generateRandom, hcount] using genRandomLoop_calls n s.rngCounter

/-- Claim C7: `CreateAndLoadRSAKey` succeeds with the fixed parameters
2048-bit modulus and public exponent 0x10001, returning a live handle and
a persistable blob, and `GetKeyPublicArea` on the returned handle reports
the 2048-bit modulus size and default exponent. -/
theorem createAndLoadRSAKey_defaults (u : AsymmetricKeyUsage)
    (pw : List Nat) (s : TpmState) :
    (createAndLoadRSAKey u pw s).1 = TPM_RC.Success ∧
    (createAndLoadRSAKey u pw s).2.2.1.modulusBits = 2048 ∧
    (createAndLoadRSAKey u pw s).2.2.1.exponent = 0x10001 ∧
    (getKeyPublicArea (createAndLoadRSAKey u pw s).2.1
        (createAndLoadRSAKey u pw s).2.2.2.1).1 = TPM_RC.Success ∧
    (getKeyPublicArea (createAndLoadRSAKey u pw s).2.1
        (createAndLoadRSAKey u pw s).2.2.2.1).2.1.modulusBits = 2048 ∧
    (getKeyPublicArea (createAndLoadRSAKey u pw s).2.1
        (createAndLoadRSAKey u pw s).2.2.2.1).2.1.exponent = 0x10001 := by
  simp [createAndLoadRSAKey, createRSAKeyPair, loadKey, getKeyPublicArea,
        findKey, keyOfBlob, supportedModulusBits]

/-- Counterexample for C8: the claim says `Shutdown` returns a result code
to its caller, but src/tpm_utility.h line 47 declares `virtual void
Shutdown()`: its return type (`ShutdownResult`, C++ `void`) cannot be
identified with the result-code domain `TPM_RC`. -/
theorem shutdown_returns_no_result_code :
    ¬ Nonempty (ShutdownResult ≃ TPM_RC) := by
  intro hne
  obtain ⟨e⟩ := hne
  have h : TPM_RC.Success = TPM_RC.FormatError :=
    e.symm.injective (Subsingleton.elim _ _)
  exact absurd h (by decide)

/-- Claim C8 as amended: every public result-returning operation of the
utility returns exactly one result code from the enumerated domain, with
`Success` the only non-error value; `Shutdown`, declared `void`, returns
no result code and always succeeds (it is total, with no failure
path). -/
theorem result_code_domain_and_shutdown_total :
    (∀ rc : TPM_RC, rc ∈ allResultCodes) ∧
    (∀ rc : TPM_RC, rc.isError = false ↔ rc = TPM_RC.Success) ∧
    (∀ (op : Op) (s : TpmState), (runOp op s).1 ∈ allResultCodes) ∧
    (∀ s : TpmState, shutdown s = ((), s)) := by
  have hmem : ∀ rc : TPM_RC, rc ∈ allResultCodes := by
    intro rc
    cases rc <;> simp [allResultCodes]
  refine ⟨hmem, ?_, fun op s => hmem _, fun _ => rfl⟩
  intro rc
  cases rc <;> simp [TPM_RC.isError]

/-- Witness for C8 (amended) at concrete codes and a concrete state. -/
theorem result_code_domain_and_shutdown_total_witness :
    TPM_RC.HardwareFault ∈ allResultCodes ∧
    (TPM_RC.HardwareFault.isError = false ↔
       TPM_RC.HardwareFault = TPM_RC.Success) ∧
    shutdown sampleState = ((), sampleState) :=
  ⟨result_code_domain_and_shutdown_total.1 TPM_RC.HardwareFault,
   result_code_domain_and_shutdown_total.2.1 TPM_RC.HardwareFault,
   result_code_domain_and_shutdown_total.2.2.2 sampleState⟩

/-- Claim C9: `Verify` takes no authorization secret, so its result code
is a deterministic function of the handle, scheme, hash algorithm, digest
and signature alone: two module states whose key tables agree after
erasing every authorization value give identical `Verify` results, for
all five arguments. -/
theorem verify_independent_of_auth_secrets
    (s1 s2 : TpmState) (kh sc ha : Nat) (d sg : List Nat)
    (h : eraseAuth s1.keys = eraseAuth s2.keys) :
    (verifySignature kh sc ha d sg s1).1 =
      (verifySignature kh sc ha d sg s2).1 := by
  have h1 := findKey_eraseAuth kh s1.keys
  have h2 := findKey_eraseAuth kh s2.keys
  rw [h, h2] at h1
  cases hk1 : findKey kh s1.keys with
  | none =>
    cases hk2 : findKey kh s2.keys with
    | none => simp [verifySignature, hk1, hk2]
    | some k2 => rw [hk1, hk2] at h1; simp at h1
  | some k1 =>
    cases hk2 : findKey kh s2.keys with
    | none => rw [hk1, hk2] at h1; simp at h1
    | some k2 =>
      rw [hk1, hk2] at h1
      have hek : eraseKeyAuth k2 = eraseKeyAuth k1 := Option.some.inj h1
      have hseed : k1.seed = k2.seed := (congrArg TpmKey.seed hek).symm
      have hsig : sigOf k1 sc ha d = sigOf k2 sc ha d := by
        simp [sigOf, hseed]
      simp [verifySignature, hk1, hk2, hsig]

/-- Witness for C9: `sampleState` and `sampleState2` differ only in the
loaded key's authorization value, and `Verify` returns the same code on
both. -/
theorem verify_independent_of_auth_secrets_witness :
    (verifySignature 5 1 2 [7] [0] sampleState).1 =
      (verifySignature 5 1 2 [7] [0] sampleState2).1 :=
  verify_independent_of_auth_secrets sampleState sampleState2 5 1 2 [7] [0]
    rfl

/-- Claim C10: the three reserved persistent storage-root handles of
src/tpm_utility.h lines 18-20 are consecutive offsets from
`PERSISTENT_FIRST` and pairwise distinct, so no two reserved persistent
objects alias the same handle. -/
theorem storage_root_handles_distinct_consecutive :
    kRSAStorageRootKey = PERSISTENT_FIRST ∧
    kECCStorageRootKey = PERSISTENT_FIRST + 1 ∧
    kSaltingKey = PERSISTENT_FIRST + 2 ∧
    kRSAStorageRootKey ≠ kECCStorageRootKey ∧
    kRSAStorageRootKey ≠ kSaltingKey ∧
    kECCStorageRootKey ≠ kSaltingKey := by
  refine ⟨?_, ?_, ?_, ?_, ?_, ?_⟩ <;> decide

end Trunks
